import Mathlib

/-!
Verification of libbtrfsutil-Go: a shallow embedding of the Go binding's
error classifier, UUID formatter, qgroup inheritance builder and subvolume
iterators, together with theorems settling the specification's claims.

Machine integers (`uint32`, `uint64`, `C.uchar`) are embedded as `Nat`,
with an explicit `% 256` where a C byte's range matters.  Go's `error`
values drawn from the fixed taxonomy are embedded as `Option BtrfsError`
(`none` is Go's `nil`).  Calls into the C library `libbtrfsutil` are
embedded by explicit models of the C state they manipulate; each such
model carries a doc comment naming what it models.
-/

/-- The fixed error taxonomy of `errors.go` (the package-level `Err...`
variables).  Constructor names keep the Go variable names. -/
inductive BtrfsError where
  | ErrStopIteration
  | ErrNoMemory
  | ErrInvalidArgument
  | ErrNotBtrfs
  | ErrNotSubvolume
  | ErrSubvolumeNotFound
  | ErrOpenFailed
  | ErrRmdirFailed
  | ErrUnlinkFailed
  | ErrStatFailed
  | ErrStatfsFailed
  | ErrSearchFailed
  | ErrInoLookupFailed
  | ErrSubvolGetflagsFailed
  | ErrSubvolSetflagsFailed
  | ErrSubvolCreateFailed
  | ErrSnapCreateFailed
  | ErrSnapDestroyFailed
  | ErrDefaultSubvolFailed
  | ErrSyncFailed
  | ErrStartSyncFailed
  | ErrWaitSyncFailed
  | ErrGetSubvolInfoFailed
  | ErrGetSubvolRootrefFailed
  | ErrInoLookupUserFailed
  | ErrFsInfoFailed
deriving DecidableEq

/-- `errorMap` of `errors.go`: the Go map from status codes 1..26 to the
error variables.  A Go map lookup for a missing key yields the value
type's zero value, which for an interface type is `nil`; hence the
embedding returns `none` for every key outside 1..26. -/
def errorMap : Nat → Option BtrfsError
  | 1 => some .ErrStopIteration
  | 2 => some .ErrNoMemory
  | 3 => some .ErrInvalidArgument
  | 4 => some .ErrNotBtrfs
  | 5 => some .ErrNotSubvolume
  | 6 => some .ErrSubvolumeNotFound
  | 7 => some .ErrOpenFailed
  | 8 => some .ErrRmdirFailed
  | 9 => some .ErrUnlinkFailed
  | 10 => some .ErrStatFailed
  | 11 => some .ErrStatfsFailed
  | 12 => some .ErrSearchFailed
  | 13 => some .ErrInoLookupFailed
  | 14 => some .ErrSubvolGetflagsFailed
  | 15 => some .ErrSubvolSetflagsFailed
  | 16 => some .ErrSubvolCreateFailed
  | 17 => some .ErrSnapCreateFailed
  | 18 => some .ErrSnapDestroyFailed
  | 19 => some .ErrDefaultSubvolFailed
  | 20 => some .ErrSyncFailed
  | 21 => some .ErrStartSyncFailed
  | 22 => some .ErrWaitSyncFailed
  | 23 => some .ErrGetSubvolInfoFailed
  | 24 => some .ErrGetSubvolRootrefFailed
  | 25 => some .ErrInoLookupUserFailed
  | 26 => some .ErrFsInfoFailed
  | _ => none

/-- `getError` of `errors.go`: `if errInt != 0 { return errorMap[errInt] };
return nil`. -/
def getError (errInt : Nat) : Option BtrfsError :=
  if errInt ≠ 0 then errorMap errInt else none

/-- `IsSubvolume` of `qgroup.go` (file section three), as a function of the
status code returned by the C call `btrfs_util_is_subvolume(Cpath)`:
`err := getError(...); if err == nil { return true, err }; return false, err`. -/
def IsSubvolume (status : Nat) : Bool × Option BtrfsError :=
  match getError status with
  | none => (true, none)
  | some e => (false, some e)

/-- One lowercase hexadecimal digit, as printed by Go's `%x` verb:
`0`..`9` then `a`..`f`. -/
def hexDigit (n : Nat) : Char :=
  if n < 10 then Char.ofNat (48 + n) else Char.ofNat (87 + n)

/-- The two lowercase hex digits Go's `%x` prints for one byte of a
`[]C.uchar` slice.  A C `uchar` is below 256; the embedding takes `Nat`
and reduces with an explicit `% 256`. -/
def byteHexChars (b : Nat) : List Char :=
  [hexDigit (b % 256 / 16), hexDigit (b % 16)]

/-- Go's `%x` on a byte slice: each byte as two lowercase hex digits,
concatenated in order. -/
def bytesHexChars (bs : List Nat) : List Char :=
  (bs.map byteHexChars).flatten

/-- The character list of `uuidString` of `qgroup.go`:
`fmt.Sprintf("%x-%x-%x-%x-%x", uuid[0:4], uuid[4:6], uuid[6:8],
uuid[8:10], uuid[10:16])`, with Go slice expressions embedded as
`take`/`drop`. -/
def uuidChars (uuid : List Nat) : List Char :=
  bytesHexChars (uuid.take 4) ++ '-' ::
  (bytesHexChars ((uuid.drop 4).take 2) ++ '-' ::
  (bytesHexChars ((uuid.drop 6).take 2) ++ '-' ::
  (bytesHexChars ((uuid.drop 8).take 2) ++ '-' ::
  bytesHexChars ((uuid.drop 10).take 6))))

/-- `uuidString` of `qgroup.go`, over the 16 bytes of a
`[16]C.uchar` value. -/
def uuidString (uuid : List Nat) : String :=
  String.mk (uuidChars uuid)

/-- The sixteen characters `%x` may produce. -/
def lowercaseHexDigits : List Char :=
  (List.range 16).map hexDigit

/-- `QgroupInherit` of `qgroup.go`.  Modelled from the spec: the wrapped
C value `*C.struct_btrfs_util_qgroup_inherit` (the state behind
`btrfs_util_create_qgroup_inherit` / `..._add_group` / `..._get_groups`,
which is not part of this repository) owns a growable, order-preserving
list of quota-group IDs, duplicates permitted; the Go zero value
(a nil C pointer, used where no spec is supplied) carries no groups and
is modelled as the empty list. -/
structure QgroupInherit where
  groups : List Nat
deriving DecidableEq

/-- `CreateQgroupInherit` of `qgroup.go`: allocates an empty spec;
Modelled from the spec: `btrfs_util_create_qgroup_inherit` starts with
zero groups. -/
def CreateQgroupInherit : QgroupInherit × Option BtrfsError :=
  ({ groups := [] }, none)

/-- `QgroupInherit.AddGroup` of `qgroup.go`; Modelled from the spec:
`btrfs_util_qgroup_inherit_add_group` appends the id to the spec's list
(append; no dedup). -/
def QgroupInherit.AddGroup (q : QgroupInherit) (groupid : Nat) :
    QgroupInherit × Option BtrfsError :=
  ({ groups := q.groups ++ [groupid] }, none)

/-- `QgroupInherit.GetGroups` of `qgroup.go`; Modelled from the spec:
`btrfs_util_qgroup_inherit_get_groups` returns a copy of the stored
list of ids in order. -/
def QgroupInherit.GetGroups (q : QgroupInherit) : List Nat :=
  q.groups

/-- A sequence of `AddGroup` calls, keeping the spec from each step
(every call returns a nil error in the model). -/
def addGroups (q : QgroupInherit) : List Nat → QgroupInherit
  | [] => q
  | id :: ids => addGroups (q.AddGroup id).1 ids

/-- The request a subvolume-creation wrapper hands to
`btrfs_util_create_subvolume`: path, flags (the Go code passes literal
`0`), and the groups of the qgroup inheritance spec, if one was
created. -/
structure SubvolCreateRequest where
  path : String
  flags : Nat
  qgroups : List Nat
deriving DecidableEq

/-- `CreateSubvolumeWithQgroup` of `qgroup.go`, as the request it
builds for the C call. -/
def CreateSubvolumeWithQgroup (path : String) (qgroup_inherit : QgroupInherit) :
    SubvolCreateRequest :=
  { path := path, flags := 0, qgroups := qgroup_inherit.groups }

/-- `CreateSubvolume` of `qgroup.go`:
`return CreateSubvolumeWithQgroup(path, &QgroupInherit{})` — the zero
value (no groups) stands in where no spec is given. -/
def CreateSubvolume (path : String) : SubvolCreateRequest :=
  CreateSubvolumeWithQgroup path { groups := [] }

/-- `SubvolumeIteratorResult` of the iterator file (`src/unnamed/part_003`). -/
structure SubvolumeIteratorResult where
  Path : String
  Id : Nat
deriving DecidableEq

/-- One step outcome of the C call `btrfs_util_subvolume_iterator_next`:
either a (path, id) pair, or a genuine per-step error.  On an error the
out-parameters are untouched, so the Go caller observes the zero values
`""` and `0`. -/
inductive StepOutcome where
  | item : String → Nat → StepOutcome
  | fail : BtrfsError → StepOutcome
deriving DecidableEq

/-- Modelled from the spec: the C iterator state behind
`btrfs_util_subvolume_iterator_next` (not part of this repository) is a
cursor over a finite sequence of per-step outcomes; each call consumes
one outcome, and every call after the sequence is exhausted returns the
`BTRFS_UTIL_ERROR_STOP_ITERATION` status (code 1) — exhaustion never
un-exhausts.  The result triple is (classified error, path, id). -/
def cIterNext : List StepOutcome → (Option BtrfsError × String × Nat) × List StepOutcome
  | [] => ((some .ErrStopIteration, "", 0), [])
  | .item p i :: rest => ((none, p, i), rest)
  | .fail e :: rest => ((some e, "", 0), rest)

/-- The C library signals `STOP_ITERATION` only for exhaustion, never as
a mid-stream step outcome; a well-formed stream has no
`fail ErrStopIteration` entry. -/
def genuineOutcome : StepOutcome → Bool
  | .fail e => decide (e ≠ BtrfsError.ErrStopIteration)
  | .item _ _ => true

/-- Well-formedness of a modelled C outcome stream. -/
def streamWF (s : List StepOutcome) : Bool :=
  s.all genuineOutcome

/-- `SubvolumeIterator` of the iterator file: cached last result, cached
last error, and the C iterator handle (`none` embeds a nil
`*C.struct_btrfs_util_subvolume_iterator`). -/
structure SubvolumeIterator where
  lastResult : Option SubvolumeIteratorResult
  lastErr : Option BtrfsError
  iterator : Option (List StepOutcome)
deriving DecidableEq

/-- `CreateSubvolumeIterator` of the iterator file: `new(SubvolumeIterator)`
zero-initializes both caches and the handle; the C constructor fills the
handle on success and leaves it nil on failure.  The filesystem's
traversal is the modelled outcome stream `s`; `createErr` is the
classified status of the C constructor. -/
def CreateSubvolumeIterator (s : List StepOutcome) (createErr : Option BtrfsError) :
    SubvolumeIterator × Option BtrfsError :=
  match createErr with
  | none => ({ lastResult := none, lastErr := none, iterator := some s }, none)
  | some e => ({ lastResult := none, lastErr := none, iterator := none }, some e)

/-- `SubvolumeIterator.HasNext` of the iterator file: one C step, the
classified error stored in `lastErr`; on `ErrStopIteration` the cached
result is cleared and `false` returned, otherwise the (possibly
zero-valued) result is cached and `true` returned.  A nil handle is
passed straight to the C library, which dereferences it: undefined
behavior, embedded as `none`. -/
def SubvolumeIterator.HasNext (it : SubvolumeIterator) :
    Option (Bool × SubvolumeIterator) :=
  match it.iterator with
  | none => none
  | some s =>
    let r := cIterNext s
    if r.1.1 = some BtrfsError.ErrStopIteration then
      some (false, { lastResult := none, lastErr := r.1.1, iterator := some r.2 })
    else
      some (true, { lastResult := some ⟨r.1.2.1, r.1.2.2⟩, lastErr := r.1.1,
                    iterator := some r.2 })

/-- `SubvolumeIterator.GetNext` of the iterator file:
`if it.lastErr != nil { return nil, it.lastErr }; return it.lastResult,
it.lastErr` — a pure read of the two cached fields. -/
def SubvolumeIterator.GetNext (it : SubvolumeIterator) :
    Option SubvolumeIteratorResult × Option BtrfsError :=
  match it.lastErr with
  | some e => (none, some e)
  | none => (it.lastResult, none)

/-- `SubvolumeIterator.Destroy` of the iterator file: asks the C library
to free the handle and sets `it.iterator = nil`; the cached fields are
left as they are and nothing is returned. -/
def SubvolumeIterator.Destroy (it : SubvolumeIterator) : SubvolumeIterator :=
  { it with iterator := none }

/-- `n + 1` successive `HasNext` calls with no intervening `GetNext`,
threading the iterator state; `none` as soon as a call hits undefined
behavior. -/
def repeatHasNext : Nat → SubvolumeIterator → Option (Bool × SubvolumeIterator)
  | 0, it => it.HasNext
  | n + 1, it => it.HasNext.bind fun p => repeatHasNext n p.2

/-- The C record `C.struct_btrfs_util_subvolume_info`: identifiers,
flags, three 16-byte UUIDs, generation and transaction counters, and
four `(tv_sec, tv_nsec)` timestamps.  A stack variable of this type is
zero-initialized, so all numeric fields default to `0` and the UUIDs to
sixteen zero bytes. -/
structure CSubvolumeInfo where
  id : Nat := 0
  parent_id : Nat := 0
  dir_id : Nat := 0
  flags : Nat := 0
  uuid : List Nat := List.replicate 16 0
  parent_uuid : List Nat := List.replicate 16 0
  received_uuid : List Nat := List.replicate 16 0
  generation : Nat := 0
  ctransid : Nat := 0
  otransid : Nat := 0
  stransid : Nat := 0
  rtransid : Nat := 0
  ctime_sec : Int := 0
  ctime_nsec : Int := 0
  otime_sec : Int := 0
  otime_nsec : Int := 0
  stime_sec : Int := 0
  stime_nsec : Int := 0
  rtime_sec : Int := 0
  rtime_nsec : Int := 0
deriving DecidableEq

/-- `time.Unix(sec, nsec)` as the moment it denotes, in nanoseconds
since the epoch. -/
def timeUnix (sec nsec : Int) : Int :=
  sec * 1000000000 + nsec

/-- `SubvolumeInfo` of `qgroup.go` (file section three): the Go-side
record with formatted UUIDs and `time.Time` timestamps (each embedded
as its nanosecond instant). -/
structure SubvolumeInfo where
  Id : Nat
  ParentId : Nat
  DirId : Nat
  Flags : Nat
  UUID : String
  ParentUUID : String
  ReceivedUUID : String
  Generation : Nat
  Ctransid : Nat
  Otransid : Nat
  Stransid : Nat
  Rtransid : Nat
  Ctime : Int
  Otime : Int
  Stime : Int
  Rtime : Int
deriving DecidableEq

/-- `newSubvolumeInfo` of `qgroup.go`: field-by-field translation of the
C record, formatting the UUIDs with `uuidString` and building the four
timestamps with `time.Unix`. -/
def newSubvolumeInfo (info : CSubvolumeInfo) : SubvolumeInfo :=
  { Id := info.id
    ParentId := info.parent_id
    DirId := info.dir_id
    Flags := info.flags
    UUID := uuidString info.uuid
    ParentUUID := uuidString info.parent_uuid
    ReceivedUUID := uuidString info.received_uuid
    Generation := info.generation
    Ctransid := info.ctransid
    Otransid := info.otransid
    Stransid := info.stransid
    Rtransid := info.rtransid
    Ctime := timeUnix info.ctime_sec info.ctime_nsec
    Otime := timeUnix info.otime_sec info.otime_nsec
    Stime := timeUnix info.stime_sec info.stime_nsec
    Rtime := timeUnix info.rtime_sec info.rtime_nsec }

/-- `SubvolumeInfoIteratorResult` of the iterator file. -/
structure SubvolumeInfoIteratorResult where
  Path : String
  Info : SubvolumeInfo
deriving DecidableEq

/-- One step outcome of `btrfs_util_subvolume_iterator_next_info`:
a (path, raw metadata record) pair, or a genuine per-step error (a
concurrently deleted subvolume makes the extra metadata read fail, e.g.
with `ErrSubvolumeNotFound`). -/
inductive InfoStepOutcome where
  | item : String → CSubvolumeInfo → InfoStepOutcome
  | fail : BtrfsError → InfoStepOutcome
deriving DecidableEq

/-- Modelled from the spec: `btrfs_util_subvolume_iterator_next_info`
(not part of this repository), the same cursor semantics as `cIterNext`;
on an error the out-parameters stay zero-initialized. -/
def cIterNextInfo : List InfoStepOutcome →
    (Option BtrfsError × String × CSubvolumeInfo) × List InfoStepOutcome
  | [] => ((some .ErrStopIteration, "", {}), [])
  | .item p inf :: rest => ((none, p, inf), rest)
  | .fail e :: rest => ((some e, "", {}), rest)

/-- As `genuineOutcome`, for the metadata flavor. -/
def genuineInfoOutcome : InfoStepOutcome → Bool
  | .fail e => decide (e ≠ BtrfsError.ErrStopIteration)
  | .item _ _ => true

/-- Well-formedness of a modelled metadata outcome stream. -/
def infoStreamWF (s : List InfoStepOutcome) : Bool :=
  s.all genuineInfoOutcome

/-- `SubvolumeInfoIterator` of the iterator file. -/
structure SubvolumeInfoIterator where
  lastResult : Option SubvolumeInfoIteratorResult
  lastErr : Option BtrfsError
  iterator : Option (List InfoStepOutcome)
deriving DecidableEq

/-- `CreateSubvolumeInfoIterator` of the iterator file; identical
construction to `CreateSubvolumeIterator`. -/
def CreateSubvolumeInfoIterator (s : List InfoStepOutcome)
    (createErr : Option BtrfsError) : SubvolumeInfoIterator × Option BtrfsError :=
  match createErr with
  | none => ({ lastResult := none, lastErr := none, iterator := some s }, none)
  | some e => ({ lastResult := none, lastErr := none, iterator := none }, some e)

/-- `SubvolumeInfoIterator.HasNext` of the iterator file: as
`SubvolumeIterator.HasNext`, with the result built through
`newSubvolumeInfo`. -/
def SubvolumeInfoIterator.HasNext (it : SubvolumeInfoIterator) :
    Option (Bool × SubvolumeInfoIterator) :=
  match it.iterator with
  | none => none
  | some s =>
    let r := cIterNextInfo s
    if r.1.1 = some BtrfsError.ErrStopIteration then
      some (false, { lastResult := none, lastErr := r.1.1, iterator := some r.2 })
    else
      some (true, { lastResult := some ⟨r.1.2.1, newSubvolumeInfo r.1.2.2⟩,
                    lastErr := r.1.1, iterator := some r.2 })

/-- `SubvolumeInfoIterator.GetNext` of the iterator file — the same pure
read of the cached fields. -/
def SubvolumeInfoIterator.GetNext (it : SubvolumeInfoIterator) :
    Option SubvolumeInfoIteratorResult × Option BtrfsError :=
  match it.lastErr with
  | some e => (none, some e)
  | none => (it.lastResult, none)

/-- `SubvolumeInfoIterator.Destroy` of the iterator file. -/
def SubvolumeInfoIterator.Destroy (it : SubvolumeInfoIterator) : SubvolumeInfoIterator :=
  { it with iterator := none }

/-- As `repeatHasNext`, for the metadata flavor. -/
def repeatHasNextInfo : Nat → SubvolumeInfoIterator → Option (Bool × SubvolumeInfoIterator)
  | 0, it => it.HasNext
  | n + 1, it => it.HasNext.bind fun p => repeatHasNextInfo n p.2

mutual
/-- A subvolume with its id and the subvolumes nested directly under it. -/
inductive SubvolTree where
  | node : Nat → SubvolForest → SubvolTree
/-- The subvolumes nested directly under one subvolume, in
filesystem-index (sibling) order. -/
inductive SubvolForest where
  | nil : SubvolForest
  | cons : SubvolTree → SubvolForest → SubvolForest
end

mutual
/-- Depth-first pre-order: a subvolume's id before its descendants. -/
def preorderT : SubvolTree → List Nat
  | .node i f => i :: preorderF f
/-- Pre-order over a forest. -/
def preorderF : SubvolForest → List Nat
  | .nil => []
  | .cons t f => preorderT t ++ preorderF f
end

mutual
/-- Depth-first post-order: a subvolume's id after its descendants. -/
def postorderT : SubvolTree → List Nat
  | .node i f => postorderF f ++ [i]
/-- Post-order over a forest. -/
def postorderF : SubvolForest → List Nat
  | .nil => []
  | .cons t f => postorderT t ++ postorderF f
end

mutual
/-- Whether id `b` labels some node of the tree. -/
def memT (b : Nat) : SubvolTree → Bool
  | .node i f => i = b || memF b f
/-- Whether id `b` labels some node of the forest. -/
def memF (b : Nat) : SubvolForest → Bool
  | .nil => false
  | .cons t f => memT b t || memF b f
end

mutual
/-- Whether some node of the tree is labelled `a` and has a node
labelled `b` strictly beneath it (`b` a strict descendant of `a`). -/
def descT (a b : Nat) : SubvolTree → Bool
  | .node i f => (i = a && memF b f) || descF a b f
/-- The same, somewhere in the forest. -/
def descF (a b : Nat) : SubvolForest → Bool
  | .nil => false
  | .cons t f => descT a b t || descF a b f
end

/-- The `BTRFS_UTIL_SUBVOLUME_ITERATOR_POST_ORDER` flag of
`btrfsutil.h` (bit 0). -/
def BTRFS_UTIL_SUBVOLUME_ITERATOR_POST_ORDER : Nat := 1

/-- The flag computation of `CreateSubvolumeIterator` in the iterator
file: `flags := 0; if post_order { flags |=
BTRFS_UTIL_SUBVOLUME_ITERATOR_POST_ORDER }`. -/
def createSubvolumeIteratorFlags (post_order : Bool) : Nat :=
  let flags := 0
  if post_order then flags ||| BTRFS_UTIL_SUBVOLUME_ITERATOR_POST_ORDER else flags

/-- Modelled from the spec: the order in which the C iterator created by
`btrfs_util_create_subvolume_iterator` (not part of this repository)
yields the subvolumes strictly beneath the top subvolume — whose child
forest is `f` — as a function of the flags word: pre-order by default,
post-order when the `POST_ORDER` flag bit is set. -/
def cIteratorYield (flags : Nat) (f : SubvolForest) : List Nat :=
  if flags &&& BTRFS_UTIL_SUBVOLUME_ITERATOR_POST_ORDER ≠ 0 then
    postorderF f
  else
    preorderF f

/-- C2: `getError` maps 0 to success and codes 1..26 per the table, but
a nonzero code outside 1..26 — 27 here — also comes back as success
(`none`), because the Go map lookup `errorMap[errInt]` yields the zero
value `nil` for a missing key instead of flagging the unmapped code. -/
theorem getError_unmapped_code_maps_to_success :
    getError 0 = none ∧
    getError 1 = some .ErrStopIteration ∧
    getError 5 = some .ErrNotSubvolume ∧
    getError 26 = some .ErrFsInfoFailed ∧
    (∀ n : Fin 27, 1 ≤ n.val → (getError n.val).isSome = true) ∧
    (27 : Nat) ≠ 0 ∧ getError 27 = none ∧ getError 100 = none := by
  decide

/-- C7 counterexample: at the status code 5 (`NotSubvolume`), the
boolean-form wrapper `IsSubvolume` returns the error alongside `false`;
it does not translate the failure into `false` with no error. -/
theorem isSubvolume_error_not_suppressed :
    IsSubvolume 5 = (false, some .ErrNotSubvolume) ∧
    IsSubvolume 5 ≠ (false, none) := by
  decide

/-- C7 amended: `IsSubvolume` returns `(true, nil)` when the underlying
check succeeds and `(false, err)` — the error included, not suppressed —
when it fails, in particular with the `NotSubvolume` error. -/
theorem isSubvolume_amended :
    (∀ status : Nat, getError status = none → IsSubvolume status = (true, none)) ∧
    (∀ (status : Nat) (e : BtrfsError),
      getError status = some e → IsSubvolume status = (false, some e)) := by
  constructor
  · intro status h
    simp [IsSubvolume, h]
  · intro status e h
    simp [IsSubvolume, h]

/-- C7 amended, witnessed at the concrete status code 5. -/
theorem isSubvolume_amended_witness :
    getError 5 = some .ErrNotSubvolume ∧
    IsSubvolume 5 = (false, some .ErrNotSubvolume) :=
  ⟨by decide, isSubvolume_amended.2 5 .ErrNotSubvolume (by decide)⟩

/-- Appending ids one at a time extends the stored group list in order. -/
theorem addGroups_groups (ids : List Nat) :
    ∀ q : QgroupInherit, (addGroups q ids).groups = q.groups ++ ids := by
  induction ids with
  | nil => intro q; simp [addGroups]
  | cons id ids ih =>
    intro q
    simp [addGroups, QgroupInherit.AddGroup, ih]

/-- C9: `GetGroups` returns exactly the ids passed to `AddGroup`, in
insertion order with no deduplication; the two scenario specs return
`[1,2]` and `[77,934,3]`; a fresh spec holds no groups, and
`CreateSubvolume` passes the zero-group spec where none is given. -/
theorem qgroup_insertion_order :
    (∀ ids : List Nat, (addGroups CreateQgroupInherit.1 ids).GetGroups = ids) ∧
    (addGroups CreateQgroupInherit.1 [1, 2]).GetGroups = [1, 2] ∧
    (addGroups CreateQgroupInherit.1 [77, 934, 3]).GetGroups = [77, 934, 3] ∧
    CreateQgroupInherit.1.GetGroups = [] ∧
    (∀ path : String, CreateSubvolume path = CreateSubvolumeWithQgroup path { groups := [] }) := by
  refine ⟨fun ids => ?_, by decide, by decide, rfl, fun path => rfl⟩
  simp [QgroupInherit.GetGroups, addGroups_groups, CreateQgroupInherit]

/-- C10: on a freshly constructed iterator of either flavor — whether
the C constructor succeeded or failed — `GetNext` before any `HasNext`
returns a nil result and a nil error. -/
theorem getNext_before_hasNext_nil_nil :
    (∀ (s : List StepOutcome) (ce : Option BtrfsError),
      ((CreateSubvolumeIterator s ce).1).GetNext = (none, none)) ∧
    (∀ (s : List InfoStepOutcome) (ce : Option BtrfsError),
      ((CreateSubvolumeInfoIterator s ce).1).GetNext = (none, none)) := by
  constructor
  · intro s ce
    cases ce <;> rfl
  · intro s ce
    cases ce <;> rfl

/-- C1 counterexample: on a traversal holding the elements
`("a", 1)` then `("b", 2)`, two `HasNext` calls without an intervening
`GetNext` leave the second element cached and the stream exhausted, and
`GetNext` then yields `("b", 2)`: the element `("a", 1)` was fetched,
overwritten and never delivered — repeated `HasNext` calls do skip
elements of the traversal. -/
theorem hasNext_twice_skips :
    ((CreateSubvolumeIterator [.item "a" 1, .item "b" 2] none).1.HasNext.bind
        fun p => p.2.HasNext) =
      some (true, { lastResult := some ⟨"b", 2⟩, lastErr := none, iterator := some [] }) ∧
    SubvolumeIterator.GetNext
        { lastResult := some ⟨"b", 2⟩, lastErr := none, iterator := some [] } =
      (some ⟨"b", 2⟩, none) ∧
    (⟨"b", 2⟩ : SubvolumeIteratorResult) ≠ ⟨"a", 1⟩ := by
  refine ⟨rfl, rfl, by decide⟩

/-- C1 amended: for both pull-based iterators, `HasNext` performs the
fetch — one step of the underlying C cursor — and caches its outcome,
and `GetNext` is a pure accessor of the cached result or error that
never re-fetches; but each `HasNext` call advances the traversal, so
repeated `HasNext` calls without an intervening `GetNext` skip
elements: after two such calls only the second fetched element is
retrievable. -/
theorem iterator_fetch_cache_accessor :
    (∀ (it : SubvolumeIterator) (s : List StepOutcome), it.iterator = some s →
      ((cIterNext s).1.1 = some BtrfsError.ErrStopIteration →
        it.HasNext = some (false,
          { lastResult := none, lastErr := (cIterNext s).1.1,
            iterator := some (cIterNext s).2 })) ∧
      ((cIterNext s).1.1 ≠ some BtrfsError.ErrStopIteration →
        it.HasNext = some (true,
          { lastResult := some ⟨(cIterNext s).1.2.1, (cIterNext s).1.2.2⟩,
            lastErr := (cIterNext s).1.1, iterator := some (cIterNext s).2 }))) ∧
    (∀ it : SubvolumeIterator,
      (it.lastErr = none → it.GetNext = (it.lastResult, none)) ∧
      (∀ e : BtrfsError, it.lastErr = some e → it.GetNext = (none, some e)) ∧
      (∀ s' : Option (List StepOutcome),
        SubvolumeIterator.GetNext { it with iterator := s' } = it.GetNext)) ∧
    (∀ (it : SubvolumeIterator) (p₁ : String) (i₁ : Nat) (p₂ : String) (i₂ : Nat)
        (rest : List StepOutcome),
      it.iterator = some (.item p₁ i₁ :: .item p₂ i₂ :: rest) →
      ∃ it₁ it₂ : SubvolumeIterator,
        it.HasNext = some (true, it₁) ∧ it₁.HasNext = some (true, it₂) ∧
        it₂.GetNext = (some ⟨p₂, i₂⟩, none) ∧ it₂.iterator = some rest) ∧
    (∀ (it : SubvolumeInfoIterator) (s : List InfoStepOutcome), it.iterator = some s →
      ((cIterNextInfo s).1.1 = some BtrfsError.ErrStopIteration →
        it.HasNext = some (false,
          { lastResult := none, lastErr := (cIterNextInfo s).1.1,
            iterator := some (cIterNextInfo s).2 })) ∧
      ((cIterNextInfo s).1.1 ≠ some BtrfsError.ErrStopIteration →
        it.HasNext = some (true,
          { lastResult := some ⟨(cIterNextInfo s).1.2.1,
              newSubvolumeInfo (cIterNextInfo s).1.2.2⟩,
            lastErr := (cIterNextInfo s).1.1, iterator := some (cIterNextInfo s).2 }))) ∧
    (∀ it : SubvolumeInfoIterator,
      (it.lastErr = none → it.GetNext = (it.lastResult, none)) ∧
      (∀ e : BtrfsError, it.lastErr = some e → it.GetNext = (none, some e)) ∧
      (∀ s' : Option (List InfoStepOutcome),
        SubvolumeInfoIterator.GetNext { it with iterator := s' } = it.GetNext)) ∧
    (∀ (it : SubvolumeInfoIterator) (p₁ : String) (c₁ : CSubvolumeInfo) (p₂ : String)
        (c₂ : CSubvolumeInfo) (rest : List InfoStepOutcome),
      it.iterator = some (.item p₁ c₁ :: .item p₂ c₂ :: rest) →
      ∃ it₁ it₂ : SubvolumeInfoIterator,
        it.HasNext = some (true, it₁) ∧ it₁.HasNext = some (true, it₂) ∧
        it₂.GetNext = (some ⟨p₂, newSubvolumeInfo c₂⟩, none) ∧
        it₂.iterator = some rest) := by
  refine ⟨?_, ?_, ?_, ?_, ?_, ?_⟩
  · intro it s h
    constructor
    · intro hstop
      simp [SubvolumeIterator.HasNext, h, hstop]
    · intro hstop
      simp [SubvolumeIterator.HasNext, h, hstop]
  · intro it
    refine ⟨fun h => by simp [SubvolumeIterator.GetNext, h],
      fun e h => by simp [SubvolumeIterator.GetNext, h], fun s' => rfl⟩
  · intro it p₁ i₁ p₂ i₂ rest h
    refine ⟨{ lastResult := some ⟨p₁, i₁⟩, lastErr := none,
              iterator := some (.item p₂ i₂ :: rest) },
            { lastResult := some ⟨p₂, i₂⟩, lastErr := none, iterator := some rest },
            ?_, rfl, rfl, rfl⟩
    simp [SubvolumeIterator.HasNext, h, cIterNext]
  · intro it s h
    constructor
    · intro hstop
      simp [SubvolumeInfoIterator.HasNext, h, hstop]
    · intro hstop
      simp [SubvolumeInfoIterator.HasNext, h, hstop]
  · intro it
    refine ⟨fun h => by simp [SubvolumeInfoIterator.GetNext, h],
      fun e h => by simp [SubvolumeInfoIterator.GetNext, h], fun s' => rfl⟩
  · intro it p₁ c₁ p₂ c₂ rest h
    refine ⟨{ lastResult := some ⟨p₁, newSubvolumeInfo c₁⟩, lastErr := none,
              iterator := some (.item p₂ c₂ :: rest) },
            { lastResult := some ⟨p₂, newSubvolumeInfo c₂⟩, lastErr := none,
              iterator := some rest },
            ?_, rfl, rfl, rfl⟩
    simp [SubvolumeInfoIterator.HasNext, h, cIterNextInfo]

/-- C1 amended, witnessed on a concrete two-element traversal. -/
theorem iterator_fetch_cache_accessor_witness :
    ∃ it₁ it₂ : SubvolumeIterator,
      SubvolumeIterator.HasNext
          { lastResult := none, lastErr := none,
            iterator := some [.item "a" 1, .item "b" 2] } = some (true, it₁) ∧
      it₁.HasNext = some (true, it₂) ∧
      it₂.GetNext = (some ⟨"b", 2⟩, none) ∧ it₂.iterator = some [] :=
  iterator_fetch_cache_accessor.2.2.1
    { lastResult := none, lastErr := none,
      iterator := some [.item "a" 1, .item "b" 2] } "a" 1 "b" 2 [] rfl

/-- C4: once `HasNext` returns `false` — which only happens when the
underlying step returned the `StopIteration` sentinel — the iterator is
in an absorbing exhausted state: `GetNext` returns the `StopIteration`
error and any number of further `HasNext` calls keeps returning `false`
with that same state, for both iterator flavors. -/
theorem iterator_exhaustion_absorbing :
    (∀ (it it' : SubvolumeIterator) (s : List StepOutcome),
      it.iterator = some s → streamWF s = true →
      it.HasNext = some (false, it') →
      it'.GetNext = (none, some .ErrStopIteration) ∧
      ∀ n : Nat, repeatHasNext n it' = some (false, it')) ∧
    (∀ (it it' : SubvolumeInfoIterator) (s : List InfoStepOutcome),
      it.iterator = some s → infoStreamWF s = true →
      it.HasNext = some (false, it') →
      it'.GetNext = (none, some .ErrStopIteration) ∧
      ∀ n : Nat, repeatHasNextInfo n it' = some (false, it')) := by
  constructor
  · intro it it' s hit hwf hnext
    match s with
    | [] =>
      simp [SubvolumeIterator.HasNext, hit, cIterNext] at hnext
      subst hnext
      refine ⟨rfl, fun n => ?_⟩
      induction n with
      | zero => rfl
      | succ n ih => exact ih
    | .item p i :: rest =>
      simp [SubvolumeIterator.HasNext, hit, cIterNext] at hnext
    | .fail e :: rest =>
      have he : e ≠ BtrfsError.ErrStopIteration := by
        simp [streamWF, genuineOutcome] at hwf
        exact hwf.1
      simp [SubvolumeIterator.HasNext, hit, cIterNext, he] at hnext
  · intro it it' s hit hwf hnext
    match s with
    | [] =>
      simp [SubvolumeInfoIterator.HasNext, hit, cIterNextInfo] at hnext
      subst hnext
      refine ⟨rfl, fun n => ?_⟩
      induction n with
      | zero => rfl
      | succ n ih => exact ih
    | .item p i :: rest =>
      simp [SubvolumeInfoIterator.HasNext, hit, cIterNextInfo] at hnext
    | .fail e :: rest =>
      have he : e ≠ BtrfsError.ErrStopIteration := by
        simp [infoStreamWF, genuineInfoOutcome] at hwf
        exact hwf.1
      simp [SubvolumeInfoIterator.HasNext, hit, cIterNextInfo, he] at hnext

/-- C4, witnessed on a concrete exhausted traversal. -/
theorem iterator_exhaustion_absorbing_witness :
    SubvolumeIterator.GetNext
        { lastResult := none, lastErr := some .ErrStopIteration, iterator := some [] } =
      (none, some .ErrStopIteration) ∧
    repeatHasNext 3
        { lastResult := none, lastErr := some .ErrStopIteration, iterator := some [] } =
      some (false,
        { lastResult := none, lastErr := some .ErrStopIteration, iterator := some [] }) := by
  have h := iterator_exhaustion_absorbing.1
    { lastResult := none, lastErr := none, iterator := some [] }
    { lastResult := none, lastErr := some .ErrStopIteration, iterator := some [] }
    [] rfl (by decide) rfl
  exact ⟨h.1, h.2 3⟩

/-- C5: a genuine per-step error (any error other than the
`StopIteration` sentinel, e.g. `SubvolumeNotFound` for a concurrently
deleted subvolume) is surfaced for that step through `GetNext`, while
the traversal advances past it and stays live — `HasNext` returns
`true` for the failed step and the handle moves to the remaining
stream; `HasNext` returns `false` only when the step classified to the
`StopIteration` sentinel. -/
theorem iterator_error_per_step :
    (∀ (it : SubvolumeIterator) (e : BtrfsError) (rest : List StepOutcome),
      it.iterator = some (.fail e :: rest) → e ≠ .ErrStopIteration →
      it.HasNext = some (true,
        { lastResult := some ⟨"", 0⟩, lastErr := some e, iterator := some rest }) ∧
      SubvolumeIterator.GetNext
        { lastResult := some ⟨"", 0⟩, lastErr := some e, iterator := some rest } =
        (none, some e)) ∧
    (∀ (it it' : SubvolumeIterator) (s : List StepOutcome) (b : Bool),
      it.iterator = some s → it.HasNext = some (b, it') → b = false →
      it'.lastErr = some .ErrStopIteration) ∧
    (∀ (it : SubvolumeInfoIterator) (e : BtrfsError) (rest : List InfoStepOutcome),
      it.iterator = some (.fail e :: rest) → e ≠ .ErrStopIteration →
      it.HasNext = some (true,
        { lastResult := some ⟨"", newSubvolumeInfo {}⟩, lastErr := some e,
          iterator := some rest }) ∧
      SubvolumeInfoIterator.GetNext
        { lastResult := some ⟨"", newSubvolumeInfo {}⟩, lastErr := some e,
          iterator := some rest } = (none, some e)) ∧
    (∀ (it it' : SubvolumeInfoIterator) (s : List InfoStepOutcome) (b : Bool),
      it.iterator = some s → it.HasNext = some (b, it') → b = false →
      it'.lastErr = some .ErrStopIteration) := by
  refine ⟨?_, ?_, ?_, ?_⟩
  · intro it e rest hit he
    exact ⟨by simp [SubvolumeIterator.HasNext, hit, cIterNext, he], rfl⟩
  · intro it it' s b hit hnext hb
    subst hb
    match s with
    | [] =>
      simp [SubvolumeIterator.HasNext, hit, cIterNext] at hnext
      rw [← hnext]
    | .item p i :: rest =>
      simp [SubvolumeIterator.HasNext, hit, cIterNext] at hnext
    | .fail e :: rest =>
      by_cases he : e = BtrfsError.ErrStopIteration
      · subst he
        simp [SubvolumeIterator.HasNext, hit, cIterNext] at hnext
        rw [← hnext]
      · simp [SubvolumeIterator.HasNext, hit, cIterNext, he] at hnext
  · intro it e rest hit he
    exact ⟨by simp [SubvolumeInfoIterator.HasNext, hit, cIterNextInfo, he], rfl⟩
  · intro it it' s b hit hnext hb
    subst hb
    match s with
    | [] =>
      simp [SubvolumeInfoIterator.HasNext, hit, cIterNextInfo] at hnext
      rw [← hnext]
    | .item p i :: rest =>
      simp [SubvolumeInfoIterator.HasNext, hit, cIterNextInfo] at hnext
    | .fail e :: rest =>
      by_cases he : e = BtrfsError.ErrStopIteration
      · subst he
        simp [SubvolumeInfoIterator.HasNext, hit, cIterNextInfo] at hnext
        rw [← hnext]
      · simp [SubvolumeInfoIterator.HasNext, hit, cIterNextInfo, he] at hnext

/-- C5, witnessed on a traversal whose first step fails with
`SubvolumeNotFound` and whose second step still yields an element. -/
theorem iterator_error_per_step_witness :
    SubvolumeIterator.HasNext
        { lastResult := none, lastErr := none,
          iterator := some [.fail .ErrSubvolumeNotFound, .item "x" 7] } =
      some (true,
        { lastResult := some ⟨"", 0⟩, lastErr := some .ErrSubvolumeNotFound,
          iterator := some [.item "x" 7] }) ∧
    SubvolumeIterator.GetNext
        { lastResult := some ⟨"", 0⟩, lastErr := some .ErrSubvolumeNotFound,
          iterator := some [.item "x" 7] } =
      (none, some .ErrSubvolumeNotFound) :=
  iterator_error_per_step.1
    { lastResult := none, lastErr := none,
      iterator := some [.fail .ErrSubvolumeNotFound, .item "x" 7] }
    .ErrSubvolumeNotFound [.item "x" 7] rfl (by decide)

/-- C6 counterexample: destroy a freshly created iterator, then use it:
`GetNext` returns a nil result and a nil error — indistinguishable from
a healthy pre-first-fetch state, not a detectable error — and `HasNext`
passes the nil handle straight to the C library (undefined behavior,
embedded as `none`), again not a detectable error. -/
theorem use_after_destroy_not_detected :
    SubvolumeIterator.GetNext
        (SubvolumeIterator.Destroy (CreateSubvolumeIterator [] none).1) =
      (none, none) ∧
    (SubvolumeIterator.Destroy (CreateSubvolumeIterator [] none).1).HasNext = none :=
  ⟨rfl, rfl⟩

/-- Each byte renders as exactly two characters. -/
theorem length_bytesHexChars (bs : List Nat) :
    (bytesHexChars bs).length = 2 * bs.length := by
  induction bs with
  | nil => rfl
  | cons b bs ih =>
    simp [bytesHexChars, byteHexChars] at ih ⊢
    omega

/-- `hexDigit` of a value below 16 is one of the sixteen lowercase hex
digit characters. -/
theorem hexDigit_mem {n : Nat} (h : n < 16) : hexDigit n ∈ lowercaseHexDigits := by
  exact List.mem_map.mpr ⟨n, List.mem_range.mpr h, rfl⟩

/-- Both characters printed for a byte are lowercase hex digits. -/
theorem mem_byteHexChars {b : Nat} {c : Char} (hc : c ∈ byteHexChars b) :
    c ∈ lowercaseHexDigits := by
  simp [byteHexChars] at hc
  rcases hc with rfl | rfl
  · exact hexDigit_mem (by omega)
  · exact hexDigit_mem (by omega)

/-- Every character of a byte-slice rendering is a lowercase hex digit. -/
theorem mem_bytesHexChars {bs : List Nat} {c : Char} (hc : c ∈ bytesHexChars bs) :
    c ∈ lowercaseHexDigits := by
  simp only [bytesHexChars, List.mem_flatten, List.mem_map] at hc
  obtain ⟨l, ⟨b, _, rfl⟩, hcl⟩ := hc
  exact mem_byteHexChars hcl

/-- No lowercase hex digit is the hyphen. -/
theorem hex_ne_hyphen : ∀ c ∈ lowercaseHexDigits, c ≠ '-' := by decide

/-- Hyphen-filtering leaves a byte-slice rendering unchanged. -/
theorem filter_bytesHexChars (bs : List Nat) :
    (bytesHexChars bs).filter (fun c => c ≠ '-') = bytesHexChars bs := by
  rw [List.filter_eq_self]
  intro c hc
  simpa using hex_ne_hyphen c (mem_bytesHexChars hc)

/-- Every character of the formatted UUID is the hyphen or a lowercase
hex digit. -/
theorem uuidChars_mem (uuid : List Nat) :
    ∀ c ∈ uuidChars uuid, c = '-' ∨ c ∈ lowercaseHexDigits := by
  intro c hc
  simp only [uuidChars, List.mem_append, List.mem_cons] at hc
  rcases hc with h | h | h | h | h | h | h | h | h
  all_goals first
    | exact Or.inl h
    | exact Or.inr (mem_bytesHexChars h)

/-- Dropping the hyphens from the formatted UUID leaves the renderings
of the five byte groups, concatenated. -/
theorem filter_uuidChars (uuid : List Nat) :
    (uuidChars uuid).filter (fun c => c ≠ '-') =
      bytesHexChars (uuid.take 4) ++ bytesHexChars ((uuid.drop 4).take 2) ++
      bytesHexChars ((uuid.drop 6).take 2) ++ bytesHexChars ((uuid.drop 8).take 2) ++
      bytesHexChars ((uuid.drop 10).take 6) := by
  have hcons : ∀ l : List Char,
      ('-' :: l).filter (fun c => c ≠ '-') = l.filter (fun c => c ≠ '-') := by
    intro l
    simp [List.filter_cons]
  simp only [uuidChars, List.filter_append, hcons, filter_bytesHexChars,
    List.append_assoc]

/-- Rendering distributes over concatenation of byte slices. -/
theorem bytesHexChars_append (l₁ l₂ : List Nat) :
    bytesHexChars (l₁ ++ l₂) = bytesHexChars l₁ ++ bytesHexChars l₂ := by
  simp [bytesHexChars]

/-- C8: for every 16-byte value, `uuidString` produces the canonical
hyphenated lowercase rendering: 36 characters, hyphens exactly at
(0-based) positions 8, 13, 18 and 23 — i.e. after the byte groups of
4, 2, 2, 2 — every other character a lowercase hex digit, and the
digits are precisely the two-digit lowercase renderings of the sixteen
bytes in order. -/
theorem uuidString_canonical (uuid : List Nat) (h16 : uuid.length = 16) :
    (uuidString uuid).length = 36 ∧
    (uuidChars uuid)[8]? = some '-' ∧ (uuidChars uuid)[13]? = some '-' ∧
    (uuidChars uuid)[18]? = some '-' ∧ (uuidChars uuid)[23]? = some '-' ∧
    (∀ c ∈ uuidChars uuid, c = '-' ∨ c ∈ lowercaseHexDigits) ∧
    (uuidChars uuid).filter (fun c => c ≠ '-') = bytesHexChars uuid ∧
    ((uuidChars uuid).filter (fun c => c ≠ '-')).length = 32 := by
  match uuid, h16 with
  | [b0, b1, b2, b3, b4, b5, b6, b7, b8, b9, b10, b11, b12, b13, b14, b15], _ =>
    refine ⟨rfl, rfl, rfl, rfl, rfl, uuidChars_mem _, ?_, ?_⟩
    · rw [filter_uuidChars]
      rfl
    · rw [filter_uuidChars]
      rfl

/-- C8, witnessed at a concrete 16-byte value. -/
theorem uuidString_canonical_witness :
    ([0x01, 0x23, 0x45, 0x67, 0x89, 0xab, 0xcd, 0xef,
      0x10, 0x32, 0x54, 0x76, 0x98, 0xba, 0xdc, 0xfe] : List Nat).length = 16 ∧
    uuidString [0x01, 0x23, 0x45, 0x67, 0x89, 0xab, 0xcd, 0xef,
      0x10, 0x32, 0x54, 0x76, 0x98, 0xba, 0xdc, 0xfe] =
      "01234567-89ab-cdef-1032-547698badcfe" ∧
    (uuidString [0x01, 0x23, 0x45, 0x67, 0x89, 0xab, 0xcd, 0xef,
      0x10, 0x32, 0x54, 0x76, 0x98, 0xba, 0xdc, 0xfe]).length = 36 :=
  ⟨rfl, rfl,
    (uuidString_canonical [0x01, 0x23, 0x45, 0x67, 0x89, 0xab, 0xcd, 0xef,
      0x10, 0x32, 0x54, 0x76, 0x98, 0xba, 0xdc, 0xfe] rfl).1⟩

mutual
/-- An id counted by `memT` occurs in the tree's pre-order listing. -/
theorem memT_preorder (b : Nat) : ∀ t : SubvolTree, memT b t = true → b ∈ preorderT t
  | .node i f, h => by
    simp only [memT, Bool.or_eq_true, decide_eq_true_eq] at h
    rcases h with h | h
    · simp [preorderT, h]
    · simp only [preorderT, List.mem_cons]
      exact Or.inr (memF_preorder b f h)
/-- An id counted by `memF` occurs in the forest's pre-order listing. -/
theorem memF_preorder (b : Nat) : ∀ f : SubvolForest, memF b f = true → b ∈ preorderF f
  | .nil, h => by simp [memF] at h
  | .cons t f, h => by
    simp only [memF, Bool.or_eq_true] at h
    simp only [preorderF, List.mem_append]
    rcases h with h | h
    · exact Or.inl (memT_preorder b t h)
    · exact Or.inr (memF_preorder b f h)
end

mutual
/-- An id counted by `memT` occurs in the tree's post-order listing. -/
theorem memT_postorder (b : Nat) : ∀ t : SubvolTree, memT b t = true → b ∈ postorderT t
  | .node i f, h => by
    simp only [memT, Bool.or_eq_true, decide_eq_true_eq] at h
    simp only [postorderT, List.mem_append, List.mem_singleton]
    rcases h with h | h
    · exact Or.inr h.symm
    · exact Or.inl (memF_postorder b f h)
/-- An id counted by `memF` occurs in the forest's post-order listing. -/
theorem memF_postorder (b : Nat) : ∀ f : SubvolForest, memF b f = true → b ∈ postorderF f
  | .nil, h => by simp [memF] at h
  | .cons t f, h => by
    simp only [memF, Bool.or_eq_true] at h
    simp only [postorderF, List.mem_append]
    rcases h with h | h
    · exact Or.inl (memT_postorder b t h)
    · exact Or.inr (memF_postorder b f h)
end

mutual
/-- Pre-order places an ancestor before the sublist holding each of its
strict descendants: if `b` lies strictly beneath a node labelled `a`
in the tree, the pre-order listing splits as `l₁ ++ a :: l₂` with
`b ∈ l₂`. -/
theorem descT_preorder_decomp (a b : Nat) : ∀ t : SubvolTree, descT a b t = true →
    ∃ l₁ l₂, preorderT t = l₁ ++ a :: l₂ ∧ b ∈ l₂
  | .node i f, h => by
    simp only [descT, Bool.or_eq_true, Bool.and_eq_true, decide_eq_true_eq] at h
    rcases h with ⟨hia, hmem⟩ | h
    · exact ⟨[], preorderF f, by simp [preorderT, hia], memF_preorder b f hmem⟩
    · obtain ⟨l₁, l₂, heq, hb⟩ := descF_preorder_decomp a b f h
      exact ⟨i :: l₁, l₂, by simp [preorderT, heq], hb⟩
/-- The forest version of `descT_preorder_decomp`. -/
theorem descF_preorder_decomp (a b : Nat) : ∀ f : SubvolForest, descF a b f = true →
    ∃ l₁ l₂, preorderF f = l₁ ++ a :: l₂ ∧ b ∈ l₂
  | .nil, h => by simp [descF] at h
  | .cons t f, h => by
    simp only [descF, Bool.or_eq_true] at h
    rcases h with h | h
    · obtain ⟨l₁, l₂, heq, hb⟩ := descT_preorder_decomp a b t h
      exact ⟨l₁, l₂ ++ preorderF f, by simp [preorderF, heq], by simp [hb]⟩
    · obtain ⟨l₁, l₂, heq, hb⟩ := descF_preorder_decomp a b f h
      exact ⟨preorderT t ++ l₁, l₂, by simp [preorderF, heq], hb⟩
end

mutual
/-- Post-order places an ancestor after the sublist holding each of its
strict descendants: the post-order listing splits as `l₁ ++ a :: l₂`
with `b ∈ l₁`. -/
theorem descT_postorder_decomp (a b : Nat) : ∀ t : SubvolTree, descT a b t = true →
    ∃ l₁ l₂, postorderT t = l₁ ++ a :: l₂ ∧ b ∈ l₁
  | .node i f, h => by
    simp only [descT, Bool.or_eq_true, Bool.and_eq_true, decide_eq_true_eq] at h
    rcases h with ⟨hia, hmem⟩ | h
    · exact ⟨postorderF f, [], by simp [postorderT, hia], memF_postorder b f hmem⟩
    · obtain ⟨l₁, l₂, heq, hb⟩ := descF_postorder_decomp a b f h
      exact ⟨l₁, l₂ ++ [i], by simp [postorderT, heq], hb⟩
/-- The forest version of `descT_postorder_decomp`. -/
theorem descF_postorder_decomp (a b : Nat) : ∀ f : SubvolForest, descF a b f = true →
    ∃ l₁ l₂, postorderF f = l₁ ++ a :: l₂ ∧ b ∈ l₁
  | .nil, h => by simp [descF] at h
  | .cons t f, h => by
    simp only [descF, Bool.or_eq_true] at h
    rcases h with h | h
    · obtain ⟨l₁, l₂, heq, hb⟩ := descT_postorder_decomp a b t h
      exact ⟨l₁, l₂ ++ postorderF f, by simp [postorderF, heq], hb⟩
    · obtain ⟨l₁, l₂, heq, hb⟩ := descF_postorder_decomp a b f h
      exact ⟨postorderT t ++ l₁, l₂, by simp [postorderF, heq], by simp [hb]⟩
end

mutual
/-- A tree's post-order listing is a permutation of its pre-order
listing. -/
theorem postorderT_perm : ∀ t : SubvolTree, List.Perm (postorderT t) (preorderT t)
  | .node i f =>
    List.Perm.trans (List.perm_append_singleton i (postorderF f))
      (List.Perm.cons i (postorderF_perm f))
/-- A forest's post-order listing is a permutation of its pre-order
listing. -/
theorem postorderF_perm : ∀ f : SubvolForest, List.Perm (postorderF f) (preorderF f)
  | .nil => List.Perm.refl []
  | .cons t f => List.Perm.append (postorderT_perm t) (postorderF_perm f)
end

/-- In a duplicate-free list split as `l₁ ++ A :: l₂`, the element `A`
sits strictly before every member of `l₂`. -/
theorem indexOf_append_cons_right {A B : Nat} {l₁ l₂ : List Nat}
    (hnd : (l₁ ++ A :: l₂).Nodup) (hB : B ∈ l₂) :
    List.indexOf A (l₁ ++ A :: l₂) < List.indexOf B (l₁ ++ A :: l₂) := by
  obtain ⟨hnd₁, hnd₂, hdisj⟩ := List.nodup_append.mp hnd
  have hA1 : A ∉ l₁ := fun h => hdisj h (List.mem_cons_self A l₂)
  have hB1 : B ∉ l₁ := fun h => hdisj h (List.mem_cons_of_mem A hB)
  have hA2 : A ∉ l₂ := (List.nodup_cons.mp hnd₂).1
  have hAB : A ≠ B := fun h => hA2 (h ▸ hB)
  rw [List.indexOf_append_of_not_mem hA1, List.indexOf_append_of_not_mem hB1,
    List.indexOf_cons_self, List.indexOf_cons_ne _ hAB]
  omega

/-- In a duplicate-free list split as `l₁ ++ A :: l₂`, every member of
`l₁` sits strictly before the element `A`. -/
theorem indexOf_append_cons_left {A B : Nat} {l₁ l₂ : List Nat}
    (hnd : (l₁ ++ A :: l₂).Nodup) (hB : B ∈ l₁) :
    List.indexOf B (l₁ ++ A :: l₂) < List.indexOf A (l₁ ++ A :: l₂) := by
  obtain ⟨hnd₁, hnd₂, hdisj⟩ := List.nodup_append.mp hnd
  have hA1 : A ∉ l₁ := fun h => hdisj h (List.mem_cons_self A l₂)
  rw [List.indexOf_append_of_mem hB, List.indexOf_append_of_not_mem hA1,
    List.indexOf_cons_self]
  have := List.indexOf_lt_length.mpr hB
  omega

/-- C3: over any subvolume forest beneath the traversal root with
distinct ids, and any `A`, `B` with `B` a strict descendant of `A`, the
iterator built by `CreateSubvolumeIterator` with `post_order = false`
yields `A` strictly before `B`, and with `post_order = true` strictly
after `B`. -/
theorem createSubvolumeIterator_order (f : SubvolForest) (A B : Nat)
    (hnd : (preorderF f).Nodup) (hAB : descF A B f = true) :
    List.indexOf A (cIteratorYield (createSubvolumeIteratorFlags false) f) <
      List.indexOf B (cIteratorYield (createSubvolumeIteratorFlags false) f) ∧
    List.indexOf B (cIteratorYield (createSubvolumeIteratorFlags true) f) <
      List.indexOf A (cIteratorYield (createSubvolumeIteratorFlags true) f) := by
  have hyf : cIteratorYield (createSubvolumeIteratorFlags false) f = preorderF f := rfl
  have hyt : cIteratorYield (createSubvolumeIteratorFlags true) f = postorderF f := rfl
  constructor
  · rw [hyf]
    obtain ⟨l₁, l₂, heq, hb⟩ := descF_preorder_decomp A B f hAB
    rw [heq] at hnd ⊢
    exact indexOf_append_cons_right hnd hb
  · rw [hyt]
    have hndpost : (postorderF f).Nodup := (postorderF_perm f).nodup_iff.mpr hnd
    obtain ⟨l₁, l₂, heq, hb⟩ := descF_postorder_decomp A B f hAB
    rw [heq] at hndpost ⊢
    exact indexOf_append_cons_left hndpost hb

/-- C3, witnessed on the forest holding subvolume 1 with subvolume 2
nested beneath it: pre-order yields `[1, 2]`, post-order `[2, 1]`. -/
theorem createSubvolumeIterator_order_witness :
    (preorderF (SubvolForest.cons
        (SubvolTree.node 1 (SubvolForest.cons (SubvolTree.node 2 SubvolForest.nil)
          SubvolForest.nil)) SubvolForest.nil)).Nodup ∧
    descF 1 2 (SubvolForest.cons
        (SubvolTree.node 1 (SubvolForest.cons (SubvolTree.node 2 SubvolForest.nil)
          SubvolForest.nil)) SubvolForest.nil) = true ∧
    (List.indexOf 1 (cIteratorYield (createSubvolumeIteratorFlags false)
        (SubvolForest.cons (SubvolTree.node 1 (SubvolForest.cons
          (SubvolTree.node 2 SubvolForest.nil) SubvolForest.nil)) SubvolForest.nil)) <
      List.indexOf 2 (cIteratorYield (createSubvolumeIteratorFlags false)
        (SubvolForest.cons (SubvolTree.node 1 (SubvolForest.cons
          (SubvolTree.node 2 SubvolForest.nil) SubvolForest.nil)) SubvolForest.nil)) ∧
    List.indexOf 2 (cIteratorYield (createSubvolumeIteratorFlags true)
        (SubvolForest.cons (SubvolTree.node 1 (SubvolForest.cons
          (SubvolTree.node 2 SubvolForest.nil) SubvolForest.nil)) SubvolForest.nil)) <
      List.indexOf 1 (cIteratorYield (createSubvolumeIteratorFlags true)
        (SubvolForest.cons (SubvolTree.node 1 (SubvolForest.cons
          (SubvolTree.node 2 SubvolForest.nil) SubvolForest.nil)) SubvolForest.nil))) :=
  ⟨by decide, by decide,
    createSubvolumeIterator_order
      (SubvolForest.cons (SubvolTree.node 1 (SubvolForest.cons
        (SubvolTree.node 2 SubvolForest.nil) SubvolForest.nil)) SubvolForest.nil)
      1 2 (by decide) (by decide)⟩

/-- C6 amended: `Destroy` clears the handle, but further use of the
iterator is not a detectable error: `HasNext` hands the nil pointer to
the C library (undefined behavior), `GetNext` silently answers from the
stale cache exactly as before the destruction, and a second `Destroy`
is another silent nil-handle call. -/
theorem destroy_use_after_amended :
    ∀ it : SubvolumeIterator,
      it.Destroy.iterator = none ∧
      it.Destroy.HasNext = none ∧
      it.Destroy.GetNext = it.GetNext ∧
      it.Destroy.Destroy = it.Destroy :=
  fun _ => ⟨rfl, rfl, rfl, rfl⟩
